import Mathlib

/-!
Verification of the sitemap-diff snapshot/diff engine.

Shallow embedding of the TypeScript sources:
  * `xml-parser.ts` (`extractURLs`),
  * `rss-manager.ts` (`RSSManager`: `getFeeds`, `downloadSitemap`, `addFeed`,
    `removeFeed`, `compareSitemaps`),
  * `telegram-bot.ts` (`extractKeywordsWithCount`).

JS strings are modelled as `List Char` (`Str`).  The Cloudflare KV store is a
total map `Str → Option Str`; `kv.put` never fails in the model (the repo's
code treats storage writes as reliable — every write is awaited with no
surrounding per-write error handling beyond the outer catch).  The network
fetch (`fetch` + optional gzip decompression) is an environment oracle
returning `Except Str Str`: `.ok body` is a decoded 2xx body, `.error msg` is
any thrown failure (non-ok status, missing gzip body, network error).
-/

/-- JS strings, modelled as lists of characters. -/
abbrev Str := List Char

/-- ASCII lower-casing of a character (models `String.prototype.toLowerCase`
and the `i` regex flag on the ASCII letters the code cares about). -/
def lcase (c : Char) : Char := c.toLower

/-- Whitespace recognised by `String.prototype.trim` (restricted to the
common whitespace characters; the exotic Unicode spaces JS also trims are
irrelevant to sitemap bodies). -/
def isJsWhite (c : Char) : Bool :=
  c == ' ' || c == '\t' || c == '\n' || c == '\r'

/-- Remove leading whitespace. -/
def trimStart (l : Str) : Str := l.dropWhile isJsWhite

/-- Remove trailing whitespace. -/
def trimEnd (l : Str) : Str := (l.reverse.dropWhile isJsWhite).reverse

/-- Model of `String.prototype.trim`. -/
def jsTrim (l : Str) : Str := trimEnd (trimStart l)

/-- Model of `a.startsWith(b)` on the model strings. -/
def startsWithStr (pre s : Str) : Bool := pre.isPrefixOf s

/-- JS line terminators, which the non-dotall regex `.` never matches. -/
def isLineTerm (c : Char) : Bool :=
  c == '\n' || c == '\r' || c == Char.ofNat 0x2028 || c == Char.ofNat 0x2029

/-- Case-insensitive match of a character against an expected lowercase
letter (the `i` flag of the regex). -/
def lowEq (c : Char) (d : Char) : Bool := lcase c == d

/-- Matching of `[^>]*>`: consume characters up to and including the first `>`;
fails when no `>` remains. -/
def skipToGt : Str → Option Str
  | [] => none
  | '>' :: rest => some rest
  | _ :: rest => skipToGt rest

/-- Attempt to match the opening `<loc[^>]*>` (case-insensitive) at the head
of the input; on success return the input just after the `>`. -/
def matchOpenTag : Str → Option Str
  | '<' :: a :: b :: c :: rest =>
    if lowEq a 'l' && lowEq b 'o' && lowEq c 'c' then skipToGt rest else none
  | _ => none

/-- Does the input start with the closing tag `</loc>` (case-insensitive)? -/
def isCloseAt : Str → Bool
  | '<' :: '/' :: a :: b :: c :: '>' :: _ => lowEq a 'l' && lowEq b 'o' && lowEq c 'c'
  | _ => false

/-- The lazy capture `(.*?)<\/loc>`: scan forward for the earliest
case-insensitive `</loc>`; each content character must be matched by the
non-dotall `.`, so a line terminator aborts the match.  Returns the captured
content and the input after the closing tag. -/
def findCloseTag : Str → Option (Str × Str)
  | [] => none
  | c :: rest =>
    if isCloseAt (c :: rest) then some ([], rest.drop 5)
    else if isLineTerm c then none
    else
      match findCloseTag rest with
      | some (content, rest') => some (c :: content, rest')
      | none => none

/-- The global scan of `locRegex.exec`: try each start position from left to
right, and after a successful match resume after its closing tag.  `fuel`
bounds the recursion; the wrapper passes the input length, which suffices
because every step consumes at least one character. -/
def scanLocs : Nat → Str → List Str
  | 0, _ => []
  | _ + 1, [] => []
  | fuel + 1, c :: rest =>
    match matchOpenTag (c :: rest) with
    | some afterOpen =>
      match findCloseTag afterOpen with
      | some (content, rest') => content :: scanLocs fuel rest'
      | none => scanLocs fuel rest
    | none => scanLocs fuel rest

/-- The filter applied to each trimmed capture before it is pushed:
`if (url && (url.startsWith('http://') || url.startsWith('https://')))`. -/
def keepUrl (u : Str) : Bool :=
  !u.isEmpty && (startsWithStr ("http://".data) u || startsWithStr ("https://".data) u)

/-- Model of `extractURLs` from `xml-parser.ts`: scan for `<loc[^>]*>(.*?)<\/loc>`
matches (case-insensitive, non-dotall), trim each capture, and keep it when
it is nonempty and starts with `http://` or `https://`.  The function is
total: the source's catch-all never fires because the scan cannot throw. -/
def extractURLs (xml : Str) : List Str :=
  ((scanLocs xml.length xml).map jsTrim).filter keepUrl

/-- Model of `RSSManager.compareSitemaps`: URLs of the newer body absent from the
older body, in the newer body's extraction order. -/
def compareSitemaps (currentContent oldContent : Str) : List Str :=
  let currentUrls := extractURLs currentContent
  let oldUrls := extractURLs oldContent
  currentUrls.filter (fun url => !(oldUrls.contains url))

/-! ## Key-value storage model

The Cloudflare `KVNamespace` is a total map from keys to optional string
values: `get` is application, `put` is pointwise override.  `kv.get` returns
`null` (here `none`) for an absent key. -/

/-- The KV store state. -/
def KV := Str → Option Str

/-- Model of `kv.put key value`. -/
def kvPut (key value : Str) (st : KV) : KV :=
  fun k => if k = key then some value else st k

/-- The empty store. -/
def kvEmpty : KV := fun _ => none

/-- JS truthiness of a `string | null` value: `null` and the empty string
are falsy (`if (currentContent)` and friends). -/
def truthy : Option Str → Bool
  | some (_ :: _) => true
  | _ => false

/-- The registry key `rss_feeds`. -/
def feedsKey : Str := ("rss_feeds".data)

/-- Key `last_update_<domain>`. -/
def lastUpdateKey (domain : Str) : Str := ("last_update_".data) ++ domain

/-- Key `sitemap_current_<domain>`. -/
def currentKey (domain : Str) : Str := ("sitemap_current_".data) ++ domain

/-- Key `sitemap_latest_<domain>`. -/
def latestKey (domain : Str) : Str := ("sitemap_latest_".data) ++ domain

/-- Key `sitemap_dated_<domain>_<YYYYMMDD>`. -/
def datedKey (domain today : Str) : Str :=
  ("sitemap_dated_".data) ++ domain ++ ("_".data) ++ today

/-! ## URL parsing model

`new URL(url)` from the WHATWG URL standard, restricted to absolute
`http://`/`https://` URLs without userinfo: the scheme is matched
case-insensitively, the authority runs to the first `/`, `?` or `#`, the
hostname is the authority up to an optional `:port` and is lower-cased, and
the pathname runs from the first `/` to the first `?` or `#` (defaulting to
`/`).  Every other input is treated as a parse failure (`new URL` throws). -/

structure URLParts where
  hostname : Str
  pathname : Str
deriving DecidableEq

/-- Case-insensitive prefix test used for the scheme. -/
def ciPrefix (pre s : Str) : Bool := pre.isPrefixOf (s.map lcase)

/-- Model of the `new URL(url)` constructor (see section comment). -/
def parseURL (url : Str) : Option URLParts :=
  let afterScheme : Option Str :=
    if ciPrefix ("https://".data) url then some (url.drop 8)
    else if ciPrefix ("http://".data) url then some (url.drop 7)
    else none
  match afterScheme with
  | none => none
  | some rest =>
    let authority := rest.takeWhile (fun c => !(c == '/' || c == '?' || c == '#'))
    let tail := rest.dropWhile (fun c => !(c == '/' || c == '?' || c == '#'))
    if authority.isEmpty || authority.contains '@' then none
    else
      let hostname := (authority.takeWhile (fun c => !(c == ':'))).map lcase
      let pathname :=
        match tail with
        | '/' :: _ => tail.takeWhile (fun c => !(c == '?' || c == '#'))
        | _ => ("/".data)
      some ⟨hostname, pathname⟩

/-! ## `RSSManager.downloadSitemap` -/

/-- The result object of `downloadSitemap` (and, by structural reuse in the
source, of `addFeed`). -/
structure DownloadResult where
  success : Bool
  errorMsg : Str
  datedFile : Option Str
  newUrls : List Str
deriving DecidableEq

/-- The environment of one attempt: today's `YYYYMMDD` string and the fetch
oracle.  `fetchBody url` is the observable outcome of
`fetch(url, …)` followed by the ok-status check, optional gzip
decompression and text decoding: `.ok body` on success, `.error msg` for
any thrown error on that path. -/
structure Env where
  today : Str
  fetchBody : Str → Except Str Str

/-- The catch-all failure result, carrying the message `下载失败: <message>`. -/
def downloadFail (msg : Str) : DownloadResult :=
  ⟨false, ("下载失败: ".data) ++ msg, none, []⟩

/-- The message of the `TypeError` thrown by `new URL` on an invalid URL
(platform-dependent text, modelled as the Workers wording). -/
def invalidUrlMsg (url : Str) : Str := ("Invalid URL: ".data) ++ url

/-- Model of `RSSManager.downloadSitemap(url, forceDownload)`, acting on a store
`st`.  Returns the result object and the posterior store. -/
def downloadSitemap (env : Env) (url : Str) (forceDownload : Bool) (st : KV) :
    DownloadResult × KV :=
  match parseURL url with
  | none => (downloadFail (invalidUrlMsg url), st)
  | some u =>
    let domain := u.hostname
    let today := env.today
    let lastUpdate := st (lastUpdateKey domain)
    if !forceDownload && lastUpdate == some today then
      -- throttle branch: no fetch
      let currentContent := st (currentKey domain)
      let latestContent := st (latestKey domain)
      if truthy currentContent && truthy latestContent then
        (⟨true, ("今天已经更新过此sitemap, 但没发送".data), none,
          compareSitemaps (currentContent.getD []) (latestContent.getD [])⟩, st)
      else
        (⟨true, ("今天已经更新过此sitemap".data), none, []⟩, st)
    else
      -- fetch branch
      match env.fetchBody url with
      | .error e => (downloadFail e, st)
      | .ok newContent =>
        let currentContent := st (currentKey domain)
        let step :=
          if truthy currentContent then
            (compareSitemaps newContent (currentContent.getD []),
             kvPut (latestKey domain) (currentContent.getD []) st)
          else ([], st)
        let st₂ := kvPut (currentKey domain) newContent step.2
        let st₃ := kvPut (datedKey domain today) newContent st₂
        let st₄ := kvPut (lastUpdateKey domain) today st₃
        (⟨true, [], some (datedKey domain today), step.1⟩, st₄)

/-! ## JSON model for the feed registry

`getFeeds` runs `JSON.parse` on the stored registry string and returns the
parsed value as-is (its TypeScript annotation `string[]` is not checked at
runtime).  The model distinguishes the runtime value that comes back:
a JSON array of strings (`JsVal.list`), or a successfully parsed JSON value
that is not an array — number, boolean or `null` (`JsVal.nonList`).
`jsonParse` models `JSON.parse` on this subset; documents outside the subset
(objects, nested or mixed arrays, …) are treated as parse failures.  On a
`JsVal.nonList` registry value, the `feeds.includes(url)` call inside
`addFeed`/`removeFeed` throws a `TypeError`, which their catch-all
converts into a failure result. -/

inductive JsVal where
  | list (l : List Str)
  | nonList
deriving DecidableEq

/-- Skip JSON whitespace. -/
def skipWs (s : Str) : Str :=
  s.dropWhile (fun c => c == ' ' || c == '\t' || c == '\n' || c == '\r')

/-- Parse the remainder of a JSON string literal (after the opening quote),
supporting the escapes `\" \\ \/ \n \t \r`.  Returns the decoded content and
the input after the closing quote. -/
def parseJsonString : Str → Option (Str × Str)
  | [] => none
  | '"' :: rest => some ([], rest)
  | '\\' :: e :: rest =>
    (match e with
     | '"' => some '"'
     | '\\' => some '\\'
     | '/' => some '/'
     | 'n' => some '\n'
     | 't' => some '\t'
     | 'r' => some '\r'
     | _ => none).bind fun c =>
      (parseJsonString rest).map fun (p : Str × Str) => (c :: p.1, p.2)
  | c :: rest =>
    if c == '\\' || c == '"' then none
    else (parseJsonString rest).map fun (p : Str × Str) => (c :: p.1, p.2)

/-- Parse `"s" ("," "s")* "]"` with interleaved whitespace; `fuel` bounds
the recursion (the wrapper passes the input length). -/
def parseStrings : Nat → Str → Option (List Str × Str)
  | 0, _ => none
  | fuel + 1, s =>
    match skipWs s with
    | '"' :: rest =>
      match parseJsonString rest with
      | none => none
      | some (str, rest') =>
        match skipWs rest' with
        | ',' :: rest'' => (parseStrings fuel rest'').map fun p => (str :: p.1, p.2)
        | ']' :: rest'' => some ([str], rest'')
        | _ => none
    | _ => none

/-- A JSON number literal (integer form suffices for the model). -/
def isNumberLit (s : Str) : Bool :=
  match s with
  | '-' :: ds => !ds.isEmpty && ds.all Char.isDigit
  | ds => !ds.isEmpty && ds.all Char.isDigit

/-- Model of `JSON.parse` on the registry subset (see section comment):
`none` means the parse throws. -/
def jsonParse (s : Str) : Option JsVal :=
  match skipWs s with
  | '[' :: rest =>
    (match skipWs rest with
     | ']' :: rest' => if (skipWs rest').isEmpty then some (JsVal.list []) else none
     | _ =>
       match parseStrings rest.length rest with
       | some (l, rest') => if (skipWs rest').isEmpty then some (JsVal.list l) else none
       | none => none)
  | '"' :: rest =>
    (match parseJsonString rest with
     | some (_, rest') => if (skipWs rest').isEmpty then some JsVal.nonList else none
     | none => none)
  | t =>
    let core := (t.reverse.dropWhile (fun c => c == ' ' || c == '\t' || c == '\n' || c == '\r')).reverse
    if isNumberLit core || core = ("true".data) || core = ("false".data) || core = ("null".data) then
      some JsVal.nonList
    else none

/-- Escaping for `JSON.stringify` of a string array (escaping quotes and backslashes;
other characters are emitted verbatim). -/
def jsonEscape (s : Str) : Str :=
  s.flatMap fun c => if c == '"' || c == '\\' then ['\\', c] else [c]

/-- Model of `JSON.stringify(feeds)`. -/
def jsonStringifyList (l : List Str) : Str :=
  ('[' :: (((l.map (fun s => '"' :: (jsonEscape s ++ ['"']))).intersperse ((",".data))).flatten)) ++ ("]".data)

/-- Model of `RSSManager.getFeeds`: read the registry key; a falsy stored value
(absent or empty) yields `[]` without parsing; a `JSON.parse` failure is
caught and yields `[]`; otherwise the parsed value is returned as-is. -/
def getFeeds (st : KV) : JsVal :=
  match st feedsKey with
  | none => JsVal.list []
  | some s =>
    if s.isEmpty then JsVal.list []
    else
      match jsonParse s with
      | some v => v
      | none => JsVal.list []

/-! ## `RSSManager.addFeed` / `RSSManager.removeFeed` -/

/-- The result object of `removeFeed`. -/
structure RemoveFeedResult where
  success : Bool
  errorMsg : Str
deriving DecidableEq

/-- Message of the `TypeError` raised when the parsed registry value has no
`.includes` method (platform-dependent text, modelled). -/
def includesTypeErrorMsg : Str := ("feeds.includes is not a function".data)

/-- Model of `RSSManager.addFeed(url)`: for a URL not yet in the registry, attempt a
download first and append the URL only on success, replacing an empty
message by `成功添加`; for an existing URL, attempt the download and replace
the message by `已存在的feed更新成功` on success.  Any thrown error (e.g.
`.includes` on a non-array registry value) is caught and converted to an
`添加失败` result. -/
def addFeed (env : Env) (url : Str) (st : KV) : DownloadResult × KV :=
  match getFeeds st with
  | JsVal.nonList =>
    (⟨false, ("添加失败: ".data) ++ includesTypeErrorMsg, none, []⟩, st)
  | JsVal.list feeds =>
    if !(feeds.contains url) then
      let r := downloadSitemap env url false st
      if !r.1.success then r
      else
        ({ r.1 with errorMsg := if r.1.errorMsg.isEmpty then ("成功添加".data) else r.1.errorMsg },
         kvPut feedsKey (jsonStringifyList (feeds ++ [url])) r.2)
    else
      let r := downloadSitemap env url false st
      if !r.1.success then r
      else ({ r.1 with errorMsg := ("已存在的feed更新成功".data) }, r.2)

/-- Model of `RSSManager.removeFeed(url)`: fail with `该RSS订阅不存在` when the URL is
absent (no state change, and no fetch — the function never consults the
network); otherwise remove the first occurrence and persist the shortened
list.  A thrown `TypeError` on a non-array registry value is caught and
converted to a `删除失败` result. -/
def removeFeed (url : Str) (st : KV) : RemoveFeedResult × KV :=
  match getFeeds st with
  | JsVal.nonList =>
    (⟨false, ("删除失败: ".data) ++ includesTypeErrorMsg⟩, st)
  | JsVal.list feeds =>
    if !(feeds.contains url) then
      (⟨false, ("该RSS订阅不存在".data)⟩, st)
    else
      (⟨true, []⟩, kvPut feedsKey (jsonStringifyList (feeds.erase url)) st)

/-! ## `extractKeywordsWithCount` from `telegram-bot.ts` -/

/-- One `{keyword, count}` entry. -/
structure KeywordStat where
  keyword : Str
  count : Nat
deriving DecidableEq

/-- Model of `Map.prototype.get` on an insertion-ordered association list. -/
def mapGet (m : List (Str × Nat)) (k : Str) : Option Nat :=
  match m with
  | [] => none
  | (k', v) :: rest => if k' = k then some v else mapGet rest k

/-- Model of `Map.prototype.set`: update in place (JS `Map` keeps the original
insertion position of an existing key), else append. -/
def mapSet (m : List (Str × Nat)) (k : Str) (v : Nat) : List (Str × Nat) :=
  match m with
  | [] => [(k, v)]
  | (k', v') :: rest => if k' = k then (k, v) :: rest else (k', v') :: mapSet rest k v

/-- Model of `String.prototype.split(sep)` for a single-character separator. -/
def splitOnChar (sep : Char) : Str → List Str
  | [] => [[]]
  | c :: rest =>
    match splitOnChar sep rest with
    | [] => []
    | s :: ss => if c = sep then [] :: s :: ss else (c :: s) :: ss

/-- Purely numeric segment test, the regex matching one or more digits
anchored at both ends. -/
def isPureNum (s : Str) : Bool := !s.isEmpty && s.all Char.isDigit

/-- Stopword test on the original (uncleaned) segment: a case-insensitive
anchored match against index, page, post, article, news or blog. -/
def isStopword (s : Str) : Bool :=
  let l := s.map lcase
  l = ("index".data) || l = ("page".data) || l = ("post".data) ||
  l = ("article".data) || l = ("news".data) || l = ("blog".data)

/-- The per-segment keep condition inside the loop: length above 2, not
purely numeric, no `.`, not a stopword. -/
def keepSegment (seg : Str) : Bool :=
  decide (seg.length > 2) && !isPureNum seg && !seg.contains '.' && !isStopword seg

/-- Cleaning of a kept segment: remove every hyphen (a global regex
replace), then lower-case. -/
def cleanSegment (seg : Str) : Str := (seg.filter (fun c => !(c == '-'))).map lcase

/-- Process one segment against the running count map. -/
def keywordFoldSeg (m : List (Str × Nat)) (seg : Str) : List (Str × Nat) :=
  if keepSegment seg then
    let c := cleanSegment seg
    if c.length > 2 then mapSet m c ((mapGet m c).getD 0 + 1) else m
  else m

/-- Process one URL: parse it (silently skipping parse failures), split its
pathname on `/`, pre-filter segments of length above 2, and fold them. -/
def keywordFoldUrl (m : List (Str × Nat)) (url : Str) : List (Str × Nat) :=
  match parseURL url with
  | none => m
  | some p =>
    ((splitOnChar '/' p.pathname).filter (fun s => decide (s.length > 2))).foldl keywordFoldSeg m

/-- Stable insertion into a descending-by-count list: the new element goes
after every element with a count at least as large. -/
def insertByCountDesc (x : KeywordStat) : List KeywordStat → List KeywordStat
  | [] => [x]
  | y :: t => if x.count ≤ y.count then y :: insertByCountDesc x t else x :: y :: t

/-- Model of `Array.prototype.sort` with comparator `(a, b) => b.count - a.count`:
JS `sort` is a stable sort, and a stable descending-by-count sort is
uniquely determined, so any stable sorting algorithm is a faithful model;
the model uses insertion sort. -/
def jsSortByCountDesc (l : List KeywordStat) : List KeywordStat :=
  l.foldl (fun acc x => insertByCountDesc x acc) []

/-- Model of `extractKeywordsWithCount(urls)`: count cleaned kept segments over all
parseable URLs, then sort by descending count and keep the first 10. -/
def extractKeywordsWithCount (urls : List Str) : List KeywordStat :=
  let keywordCounts := urls.foldl keywordFoldUrl []
  jsSortByCountDesc (keywordCounts.map (fun p => ⟨p.1, p.2⟩)) |>.take 10

theorem sanityCheck1 :
    extractKeywordsWithCount
      [("https://a.com/tech-news/2024/".data), ("https://a.com/tech-news/ai/".data)]
    = [⟨("technews".data), 2⟩] := by decide

theorem sanityCheck2 :
    extractKeywordsWithCount
      [("https://a.com/alpha/beta/".data), ("https://a.com/beta/x.html/".data),
       ("https://b.com/beta/index/123/".data)]
    = [⟨("beta".data), 3⟩, ⟨("alpha".data), 1⟩] := by decide

theorem sanityCheck3 : jsonParse ("[\"https://a.com/s.xml\", \"https://b.com/s.xml\"]".data)
    = some (JsVal.list [("https://a.com/s.xml".data), ("https://b.com/s.xml".data)]) := by decide

theorem sanityCheck4 : jsonParse ("5".data) = some JsVal.nonList := by decide

theorem sanityCheck5 : jsonParse ("[".data) = none := by decide

theorem sanityCheck6 : jsonStringifyList [("a".data), ("b".data)] = ("[\"a\",\"b\"]".data) := by decide

/-! ## General lemmas -/

theorem contains_eq_true_iff {α : Type} [BEq α] [LawfulBEq α] (l : List α) (a : α) :
    l.contains a = true ↔ a ∈ l := List.elem_iff

theorem mem_compareSitemaps (A B : Str) (u : Str) :
    u ∈ compareSitemaps A B ↔ u ∈ extractURLs A ∧ u ∉ extractURLs B := by
  simp only [compareSitemaps, List.mem_filter, Bool.not_eq_true]
  simp [contains_eq_true_iff]

theorem count_compareSitemaps (A B : Str) (u : Str) :
    (compareSitemaps A B).count u =
      if u ∈ extractURLs B then 0 else (extractURLs A).count u := by
  by_cases h : u ∈ extractURLs B
  · simp only [h, if_true]
    refine List.count_eq_zero.mpr ?_
    intro hmem
    exact ((mem_compareSitemaps A B u).mp hmem).2 h
  · simp only [h, if_false, compareSitemaps]
    exact List.count_filter (by simpa [Bool.not_eq_true', ← Bool.not_eq_true, contains_eq_true_iff])

theorem compareSitemaps_self (A : Str) : compareSitemaps A A = [] := by
  refine List.filter_eq_nil_iff.mpr ?_
  intro a ha
  simp [contains_eq_true_iff, ha]

theorem compareSitemaps_empty (A : Str) : compareSitemaps A [] = extractURLs A := by
  refine List.filter_eq_self.mpr ?_
  intro a _
  rfl

/-- C3.  Diff correctness: `compareSitemaps A B` holds exactly the URLs in
the extraction of `A` absent from the extraction of `B` (exact string
equality), in `A`'s extraction order (it is a sublist of the extraction of
`A`), with per-URL multiplicities preserved when the URL is absent from
`B`'s extraction; `compareSitemaps A A = []` and diffing against the empty
document returns the whole extraction. -/
theorem C3_diff_correctness :
    (∀ A B u, u ∈ compareSitemaps A B ↔ u ∈ extractURLs A ∧ u ∉ extractURLs B) ∧
    (∀ A B, List.Sublist (compareSitemaps A B) (extractURLs A)) ∧
    (∀ A B u, (compareSitemaps A B).count u =
      if u ∈ extractURLs B then 0 else (extractURLs A).count u) ∧
    (∀ A, compareSitemaps A A = []) ∧
    (∀ A, compareSitemaps A [] = extractURLs A) :=
  ⟨mem_compareSitemaps, fun A _ => List.filter_sublist (extractURLs A),
   count_compareSitemaps, compareSitemaps_self, compareSitemaps_empty⟩

/-! ## Lemmas about trimming and the scanner -/

theorem dropWhile_dropWhile (p : Char → Bool) (l : Str) :
    (l.dropWhile p).dropWhile p = l.dropWhile p := by
  induction l with
  | nil => rfl
  | cons c t ih =>
    by_cases h : p c
    · simp [List.dropWhile_cons, h, ih]
    · simp [List.dropWhile_cons, h]

theorem trimStart_idem (l : Str) : trimStart (trimStart l) = trimStart l :=
  dropWhile_dropWhile isJsWhite l

theorem trimEnd_idem (l : Str) : trimEnd (trimEnd l) = trimEnd l := by
  simp [trimEnd, List.reverse_reverse, dropWhile_dropWhile]

theorem trimEnd_prefix (l : Str) : List.IsPrefix (trimEnd l) l := by
  have h : List.IsSuffix (l.reverse.dropWhile isJsWhite) l.reverse :=
    List.dropWhile_suffix isJsWhite
  refine (@List.reverse_suffix Char (trimEnd l) l).mp ?_
  simpa [trimEnd, List.reverse_reverse] using h

theorem head_false_of_dropWhile_eq (p : Char → Bool) (d : Char) (rest : Str)
    (h : List.dropWhile p (d :: rest) = d :: rest) : p d = false := by
  by_cases hp : p d
  · exfalso
    rw [List.dropWhile_cons, if_pos hp] at h
    have hle : (List.dropWhile p rest).length ≤ rest.length :=
      (List.dropWhile_suffix p).sublist.length_le
    rw [h] at hle
    simp at hle
  · simpa using hp

theorem trimStart_trimEnd (l : Str) (h : trimStart l = l) :
    trimStart (trimEnd l) = trimEnd l := by
  cases hE : trimEnd l with
  | nil => rfl
  | cons d t' =>
    have hpre : List.IsPrefix (d :: t') l := hE ▸ trimEnd_prefix l
    obtain ⟨r, hr⟩ := hpre
    have hd : isJsWhite d = false := by
      apply head_false_of_dropWhile_eq isJsWhite d (t' ++ r)
      have : l = d :: (t' ++ r) := by rw [← hr]; rfl
      rw [← this]
      exact h
    simp [trimStart, List.dropWhile_cons, hd]

theorem jsTrim_idem (l : Str) : jsTrim (jsTrim l) = jsTrim l := by
  show trimEnd (trimStart (trimEnd (trimStart l))) = trimEnd (trimStart l)
  rw [trimStart_trimEnd (trimStart l) (trimStart_idem l), trimEnd_idem]

theorem mem_of_mem_trimEnd {c : Char} {l : Str} (h : c ∈ trimEnd l) : c ∈ l := by
  have h1 : c ∈ l.reverse.dropWhile isJsWhite := by
    simpa [trimEnd, List.mem_reverse] using h
  have h2 : c ∈ l.reverse := (List.dropWhile_suffix isJsWhite).sublist.mem h1
  simpa [List.mem_reverse] using h2

theorem mem_of_mem_jsTrim {c : Char} {l : Str} (h : c ∈ jsTrim l) : c ∈ l := by
  have h1 : c ∈ trimStart l := mem_of_mem_trimEnd h
  exact (List.dropWhile_suffix isJsWhite).sublist.mem h1

theorem findCloseTag_no_lineterm :
    ∀ l content rest : Str, findCloseTag l = some (content, rest) →
      ∀ c ∈ content, isLineTerm c = false := by
  intro l
  induction l with
  | nil => intro content rest h; simp [findCloseTag] at h
  | cons a t ih =>
    intro content rest h
    by_cases h1 : isCloseAt (a :: t)
    · rw [findCloseTag, if_pos h1] at h
      obtain ⟨hc, -⟩ : [] = content ∧ t.drop 5 = rest := by
        simpa using h
      simp [← hc]
    · by_cases h2 : isLineTerm a
      · rw [findCloseTag, if_neg h1, if_pos h2] at h
        simp at h
      · cases hrec : findCloseTag t with
        | none => rw [findCloseTag, if_neg h1, if_neg h2, hrec] at h; simp at h
        | some pr =>
          obtain ⟨content', rest'⟩ := pr
          rw [findCloseTag, if_neg h1, if_neg h2, hrec] at h
          obtain ⟨hc, -⟩ : a :: content' = content ∧ rest' = rest := by
            simpa using h
          intro c hcmem
          rw [← hc] at hcmem
          rcases List.mem_cons.mp hcmem with rfl | h'
          · simpa using h2
          · exact ih content' rest' hrec c h'

theorem scanLocs_no_lineterm :
    ∀ (fuel : Nat) (s u : Str), u ∈ scanLocs fuel s → ∀ c ∈ u, isLineTerm c = false := by
  intro fuel
  induction fuel with
  | zero => intro s u h; simp [scanLocs] at h
  | succ f ih =>
    intro s u h
    cases s with
    | nil => simp [scanLocs] at h
    | cons a t =>
      cases ho : matchOpenTag (a :: t) with
      | none => simp only [scanLocs, ho] at h; exact ih _ _ h
      | some afterOpen =>
        cases hc : findCloseTag afterOpen with
        | none => simp only [scanLocs, ho, hc] at h; exact ih _ _ h
        | some pr =>
          obtain ⟨content, rest'⟩ := pr
          simp only [scanLocs, ho, hc] at h
          rcases List.mem_cons.mp h with rfl | h'
          · exact findCloseTag_no_lineterm _ _ _ hc
          · exact ih _ _ h'

theorem mem_extractURLs (s u : Str) (h : u ∈ extractURLs s) :
    ∃ cpt ∈ scanLocs s.length s, u = jsTrim cpt ∧ keepUrl u = true := by
  have h1 := (List.mem_filter.mp h).1
  have h2 := (List.mem_filter.mp h).2
  obtain ⟨cpt, hmem, heq⟩ := List.mem_map.mp h1
  exact ⟨cpt, hmem, heq.symm, h2⟩

/-- C5.  URL extraction: every extracted URL is a trimmed capture of a
case-insensitive loc tag pair that starts with http or https (the
conjunction characterises the kept values; the concrete document exercises
case-insensitive tag matching, attribute tolerance, trimming, and rejection
of non-http schemes, blank captures and unclosed tags).  The model function
is total, mirroring the source's catch-all that can never fire. -/
theorem C5_url_extraction :
    (∀ s u, u ∈ extractURLs s →
      jsTrim u = u ∧
        (startsWithStr ("http://".data) u = true ∨ startsWithStr ("https://".data) u = true)) ∧
    extractURLs
        ("<LOC attr=x>\t https://a.com/p </LoC><loc>ftp://b</loc><loc>   </loc><loc>https://open".data)
      = [("https://a.com/p".data)] := by
  constructor
  · intro s u h
    obtain ⟨cpt, -, rfl, hkeep⟩ := mem_extractURLs s u h
    refine ⟨jsTrim_idem cpt, ?_⟩
    have := hkeep
    simp only [keepUrl, Bool.and_eq_true, Bool.or_eq_true] at this
    exact this.2
  · decide

/-- C5 witness: the characterisation applied to a concrete extraction. -/
theorem C5_url_extraction_witness :
    jsTrim ("https://a.com/p".data) = ("https://a.com/p".data) ∧
      (startsWithStr ("http://".data) ("https://a.com/p".data) = true ∨
       startsWithStr ("https://".data) ("https://a.com/p".data) = true) :=
  C5_url_extraction.1 ("<loc> https://a.com/p </loc>".data) ("https://a.com/p".data) (by decide)

/-- C10.  No extracted URL contains a line break: the non-dotall capture
cannot cross a line terminator, so every returned URL is free of newline
and carriage-return characters, and a loc pair whose content spans a line
break contributes nothing (concrete conjunct). -/
theorem C10_no_newline_in_urls :
    (∀ s u, u ∈ extractURLs s → '\n' ∉ u ∧ '\r' ∉ u) ∧
    extractURLs ("<loc>https://a.com/x\nmore</loc>".data) = [] := by
  constructor
  · intro s u h
    obtain ⟨cpt, hmem, rfl, -⟩ := mem_extractURLs s u h
    constructor
    · intro hn
      have := scanLocs_no_lineterm _ _ _ hmem '\n' (mem_of_mem_jsTrim hn)
      simp [isLineTerm] at this
    · intro hn
      have := scanLocs_no_lineterm _ _ _ hmem '\r' (mem_of_mem_jsTrim hn)
      simp [isLineTerm] at this
  · decide

/-- C10 witness: the property applied to a concrete extraction. -/
theorem C10_no_newline_in_urls_witness :
    '\n' ∉ ("https://a.b/c".data) ∧ '\r' ∉ ("https://a.b/c".data) :=
  C10_no_newline_in_urls.1 ("<loc>https://a.b/c</loc>".data) ("https://a.b/c".data) (by decide)

/-! ## Distinctness of the snapshot keys -/

theorem latestKey_ne_lastUpdateKey (d₁ d₂ : Str) : latestKey d₁ ≠ lastUpdateKey d₂ := by
  intro h
  have h0 : (some 's' : Option Char) = some 'l' := congrArg (fun l => l[0]?) h
  simp at h0

theorem latestKey_ne_datedKey (d₁ d₂ t : Str) : latestKey d₁ ≠ datedKey d₂ t := by
  intro h
  have h0 : (some 'l' : Option Char) = some 'd' := congrArg (fun l => l[8]?) h
  simp at h0

theorem latestKey_ne_currentKey (d₁ d₂ : Str) : latestKey d₁ ≠ currentKey d₂ := by
  intro h
  have h0 : (some 'l' : Option Char) = some 'c' := congrArg (fun l => l[8]?) h
  simp at h0

theorem currentKey_ne_lastUpdateKey (d₁ d₂ : Str) : currentKey d₁ ≠ lastUpdateKey d₂ := by
  intro h
  have h0 : (some 's' : Option Char) = some 'l' := congrArg (fun l => l[0]?) h
  simp at h0

theorem currentKey_ne_datedKey (d₁ d₂ t : Str) : currentKey d₁ ≠ datedKey d₂ t := by
  intro h
  have h0 : (some 'c' : Option Char) = some 'd' := congrArg (fun l => l[8]?) h
  simp at h0

theorem datedKey_ne_lastUpdateKey (d₁ t d₂ : Str) : datedKey d₁ t ≠ lastUpdateKey d₂ := by
  intro h
  have h0 : (some 's' : Option Char) = some 'l' := congrArg (fun l => l[0]?) h
  simp at h0

/-! ## Branch lemmas for `downloadSitemap` -/

theorem downloadSitemap_parse_fail (env : Env) (url : Str) (force : Bool) (st : KV)
    (hu : parseURL url = none) :
    downloadSitemap env url force st = (downloadFail (invalidUrlMsg url), st) := by
  simp [downloadSitemap, hu]

theorem downloadSitemap_throttle (env : Env) (url : Str) (u : URLParts) (force : Bool)
    (st : KV) (hu : parseURL url = some u)
    (hg : (!force && (st (lastUpdateKey u.hostname) == some env.today)) = true) :
    downloadSitemap env url force st =
      ((if truthy (st (currentKey u.hostname)) && truthy (st (latestKey u.hostname)) then
          ⟨true, ("今天已经更新过此sitemap, 但没发送".data), none,
            compareSitemaps ((st (currentKey u.hostname)).getD [])
              ((st (latestKey u.hostname)).getD [])⟩
        else ⟨true, ("今天已经更新过此sitemap".data), none, []⟩), st) := by
  by_cases hc : truthy (st (currentKey u.hostname)) && truthy (st (latestKey u.hostname))
  · simp [downloadSitemap, hu, hg, hc]
  · simp [downloadSitemap, hu, hg, hc]

theorem downloadSitemap_fetch_fail (env : Env) (url : Str) (u : URLParts) (force : Bool)
    (st : KV) (e : Str) (hu : parseURL url = some u)
    (hg : (!force && (st (lastUpdateKey u.hostname) == some env.today)) = false)
    (hf : env.fetchBody url = Except.error e) :
    downloadSitemap env url force st = (downloadFail e, st) := by
  simp [downloadSitemap, hu, hg, hf]

theorem downloadSitemap_fetch_ok (env : Env) (url : Str) (u : URLParts) (force : Bool)
    (st : KV) (body : Str) (hu : parseURL url = some u)
    (hg : (!force && (st (lastUpdateKey u.hostname) == some env.today)) = false)
    (hf : env.fetchBody url = Except.ok body) :
    downloadSitemap env url force st =
      (⟨true, [], some (datedKey u.hostname env.today),
        if truthy (st (currentKey u.hostname)) then
          compareSitemaps body ((st (currentKey u.hostname)).getD [])
        else []⟩,
       kvPut (lastUpdateKey u.hostname) env.today
         (kvPut (datedKey u.hostname env.today) body
           (kvPut (currentKey u.hostname) body
             (if truthy (st (currentKey u.hostname)) then
                kvPut (latestKey u.hostname) ((st (currentKey u.hostname)).getD []) st
              else st)))) := by
  by_cases hc : truthy (st (currentKey u.hostname))
  · simp [downloadSitemap, hu, hg, hf, hc]
  · simp [downloadSitemap, hu, hg, hf, hc]

/-! ## C1: same-day throttle -/

/-- C1 counterexample.  A state where the marker equals today and both the
`current` and `latest` snapshots exist (are non-`null`) but `latest` is the
empty string: the attempt returns an empty `newUrls` although
`diff(current, latest)` is nonempty, refuting the claim's description of the
throttle branch for existing-but-empty snapshots. -/
theorem C1_same_day_throttle_counterexample :
    (kvPut (lastUpdateKey ("a.com".data)) ("20240101".data)
        (kvPut (currentKey ("a.com".data)) ("<loc>https://a.com/page1</loc>".data)
          (kvPut (latestKey ("a.com".data)) [] kvEmpty)))
        (lastUpdateKey ("a.com".data)) = some ("20240101".data) ∧
    (kvPut (lastUpdateKey ("a.com".data)) ("20240101".data)
        (kvPut (currentKey ("a.com".data)) ("<loc>https://a.com/page1</loc>".data)
          (kvPut (latestKey ("a.com".data)) [] kvEmpty)))
        (currentKey ("a.com".data)) ≠ none ∧
    (kvPut (lastUpdateKey ("a.com".data)) ("20240101".data)
        (kvPut (currentKey ("a.com".data)) ("<loc>https://a.com/page1</loc>".data)
          (kvPut (latestKey ("a.com".data)) [] kvEmpty)))
        (latestKey ("a.com".data)) ≠ none ∧
    ¬ ((downloadSitemap ⟨("20240101".data), fun _ => Except.error []⟩
          ("https://a.com/sitemap.xml".data) false
          (kvPut (lastUpdateKey ("a.com".data)) ("20240101".data)
            (kvPut (currentKey ("a.com".data)) ("<loc>https://a.com/page1</loc>".data)
              (kvPut (latestKey ("a.com".data)) [] kvEmpty)))).1.newUrls =
        compareSitemaps ("<loc>https://a.com/page1</loc>".data) []) := by
  refine ⟨by decide, by decide, by decide, by decide⟩

/-- C1 (amended).  Same-day throttle idempotence: when the marker equals
today and no bypass is requested, the attempt consults the network oracle
not at all (two attempts with different fetch oracles coincide), writes
nothing, and returns success with a null archived key and `newUrls` equal to
`diff(current, latest)` when both snapshots exist *and are non-empty* (JS
truthiness treats an empty-string snapshot as missing), and an empty list
otherwise; a second identical call returns the same result. -/
theorem C1_same_day_throttle (today : Str) (fb fb' : Str → Except Str Str) (url : Str)
    (u : URLParts) (st : KV) (hu : parseURL url = some u)
    (hm : st (lastUpdateKey u.hostname) = some today) :
    (downloadSitemap ⟨today, fb⟩ url false st).2 = st ∧
    downloadSitemap ⟨today, fb'⟩ url false st = downloadSitemap ⟨today, fb⟩ url false st ∧
    (downloadSitemap ⟨today, fb⟩ url false st).1.success = true ∧
    (downloadSitemap ⟨today, fb⟩ url false st).1.datedFile = none ∧
    (downloadSitemap ⟨today, fb⟩ url false st).1.newUrls =
      (if truthy (st (currentKey u.hostname)) && truthy (st (latestKey u.hostname)) then
        compareSitemaps ((st (currentKey u.hostname)).getD [])
          ((st (latestKey u.hostname)).getD [])
      else []) ∧
    downloadSitemap ⟨today, fb⟩ url false ((downloadSitemap ⟨today, fb⟩ url false st).2) =
      downloadSitemap ⟨today, fb⟩ url false st := by
  have hg : (!false && (st (lastUpdateKey u.hostname) == some today)) = true := by
    simp [hm]
  have e1 := downloadSitemap_throttle ⟨today, fb⟩ url u false st hu hg
  have e2 := downloadSitemap_throttle ⟨today, fb'⟩ url u false st hu hg
  refine ⟨by rw [e1], by rw [e1, e2], ?_, ?_, ?_, by simp [e1]⟩ <;>
    rw [e1] <;> by_cases hc : truthy (st (currentKey u.hostname)) && truthy (st (latestKey u.hostname)) <;>
    simp [hc]

/-- C1 state for the witness. -/
def C1StateW : KV :=
  kvPut (lastUpdateKey ("a.com".data)) ("20240101".data)
    (kvPut (currentKey ("a.com".data)) ("<loc>https://a/1</loc><loc>https://a/2</loc>".data)
      (kvPut (latestKey ("a.com".data)) ("<loc>https://a/1</loc>".data) kvEmpty))

/-- C1 witness: the amended throttle theorem applied at a concrete state. -/
theorem C1_same_day_throttle_witness :
    (downloadSitemap ⟨("20240101".data), fun _ => Except.error []⟩
      ("https://a.com/sitemap.xml".data) false C1StateW).2 = C1StateW :=
  (C1_same_day_throttle ("20240101".data) (fun _ => Except.error []) (fun _ => Except.error [])
    ("https://a.com/sitemap.xml".data) ⟨("a.com".data), ("/sitemap.xml".data)⟩ C1StateW
    (by decide) (by decide)).1

/-! ## C2: snapshot rotation -/

/-- C2 counterexample.  A domain whose existing `current` snapshot is the
empty string: after a successful fetch the code leaves `latest` unwritten
(`none`, not the old `current`) and reports an empty diff instead of
`diff(new body, C0)`, refuting the claim for an existing-but-empty `C0`. -/
theorem C2_snapshot_rotation_counterexample :
    (kvPut (currentKey ("a.com".data)) [] kvEmpty) (currentKey ("a.com".data)) = some [] ∧
    (downloadSitemap ⟨("20240101".data), fun _ => Except.ok ("<loc>https://a.com/new</loc>".data)⟩
        ("https://a.com/sitemap.xml".data) false
        (kvPut (currentKey ("a.com".data)) [] kvEmpty)).1.success = true ∧
    (downloadSitemap ⟨("20240101".data), fun _ => Except.ok ("<loc>https://a.com/new</loc>".data)⟩
        ("https://a.com/sitemap.xml".data) false
        (kvPut (currentKey ("a.com".data)) [] kvEmpty)).2 (latestKey ("a.com".data)) = none ∧
    (downloadSitemap ⟨("20240101".data), fun _ => Except.ok ("<loc>https://a.com/new</loc>".data)⟩
        ("https://a.com/sitemap.xml".data) false
        (kvPut (currentKey ("a.com".data)) [] kvEmpty)).1.newUrls = [] ∧
    compareSitemaps ("<loc>https://a.com/new</loc>".data) [] = [("https://a.com/new".data)] := by
  refine ⟨by decide, by decide, by decide, by decide, by decide⟩

/-- C2 (amended).  Snapshot rotation: after a successful fetch that takes
the fetch branch on a domain whose existing `current` snapshot `C0` is
*non-empty*, the new state has `latest == C0`, `current` and the dated entry
equal to the fetched body, the marker equal to today, and the outcome is
success with empty message, archived key `sitemap_dated_<domain>_<today>`
(the concrete spelling of the dated snapshot key for that domain and day)
and `newUrls = diff(new body, C0)`. -/
theorem C2_snapshot_rotation (env : Env) (url : Str) (u : URLParts) (force : Bool)
    (st : KV) (C0 body : Str) (hu : parseURL url = some u)
    (hg : (!force && (st (lastUpdateKey u.hostname) == some env.today)) = false)
    (hf : env.fetchBody url = Except.ok body)
    (hc : st (currentKey u.hostname) = some C0) (hne : C0 ≠ []) :
    (downloadSitemap env url force st).2 (latestKey u.hostname) = some C0 ∧
    (downloadSitemap env url force st).2 (currentKey u.hostname) = some body ∧
    (downloadSitemap env url force st).2 (datedKey u.hostname env.today) = some body ∧
    (downloadSitemap env url force st).2 (lastUpdateKey u.hostname) = some env.today ∧
    (downloadSitemap env url force st).1 =
      ⟨true, [], some (datedKey u.hostname env.today), compareSitemaps body C0⟩ := by
  cases C0 with
  | nil => exact absurd rfl hne
  | cons a t =>
    have e := downloadSitemap_fetch_ok env url u force st body hu hg hf
    rw [e]
    refine ⟨?_, ?_, ?_, ?_, ?_⟩
    · simp [kvPut, hc, truthy, latestKey_ne_lastUpdateKey, latestKey_ne_datedKey,
        latestKey_ne_currentKey]
    · simp [kvPut, currentKey_ne_lastUpdateKey, currentKey_ne_datedKey]
    · simp [kvPut, datedKey_ne_lastUpdateKey]
    · simp [kvPut]
    · simp [hc, truthy]

/-- C2 witness: the amended rotation theorem applied at a concrete state. -/
theorem C2_snapshot_rotation_witness :
    (downloadSitemap ⟨("20240102".data), fun _ => Except.ok ("<loc>https://a/2</loc>".data)⟩
      ("https://a.com/sitemap.xml".data) false
      (kvPut (currentKey ("a.com".data)) ("<loc>https://a/1</loc>".data) kvEmpty)).2
      (latestKey ("a.com".data)) = some ("<loc>https://a/1</loc>".data) :=
  (C2_snapshot_rotation ⟨("20240102".data), fun _ => Except.ok ("<loc>https://a/2</loc>".data)⟩
    ("https://a.com/sitemap.xml".data) ⟨("a.com".data), ("/sitemap.xml".data)⟩ false
    (kvPut (currentKey ("a.com".data)) ("<loc>https://a/1</loc>".data) kvEmpty)
    ("<loc>https://a/1</loc>".data) ("<loc>https://a/2</loc>".data)
    (by decide) (by decide) rfl (by decide) (by decide)).1

/-! ## C4: per-source failure atomicity -/

/-- C4.  Every failure of the per-source attempt is returned as a structured
failure value (`success = false`, null archived key, empty `newUrls`) with
the store untouched; on success the store is either untouched (throttle
branch) or carries the complete write set of a successful fetch — `latest`
(when a truthy `current` existed), `current`, the dated entry and the
marker.  The model function is total, mirroring the source's catch-all: no
exception propagates. -/
theorem C4_failure_atomicity (env : Env) (url : Str) (force : Bool) (st : KV) :
    ((downloadSitemap env url force st).1.success = false →
      (downloadSitemap env url force st).1.datedFile = none ∧
      (downloadSitemap env url force st).1.newUrls = [] ∧
      (downloadSitemap env url force st).2 = st) ∧
    ((downloadSitemap env url force st).1.success = true →
      (downloadSitemap env url force st).2 = st ∨
      ∃ u body, parseURL url = some u ∧ env.fetchBody url = Except.ok body ∧
        (downloadSitemap env url force st).2 =
          kvPut (lastUpdateKey u.hostname) env.today
            (kvPut (datedKey u.hostname env.today) body
              (kvPut (currentKey u.hostname) body
                (if truthy (st (currentKey u.hostname)) then
                   kvPut (latestKey u.hostname) ((st (currentKey u.hostname)).getD []) st
                 else st)))) := by
  cases hu : parseURL url with
  | none =>
    rw [downloadSitemap_parse_fail env url force st hu]
    exact ⟨fun _ => ⟨rfl, rfl, rfl⟩, fun h => by simp [downloadFail] at h⟩
  | some u =>
    cases hg : (!force && (st (lastUpdateKey u.hostname) == some env.today)) with
    | true =>
      rw [downloadSitemap_throttle env url u force st hu hg]
      by_cases hc : truthy (st (currentKey u.hostname)) && truthy (st (latestKey u.hostname))
      · simp [hc]
      · simp [hc]
    | false =>
      cases hf : env.fetchBody url with
      | error e =>
        rw [downloadSitemap_fetch_fail env url u force st e hu hg hf]
        exact ⟨fun _ => ⟨rfl, rfl, rfl⟩, fun h => by simp [downloadFail] at h⟩
      | ok body =>
        rw [downloadSitemap_fetch_ok env url u force st body hu hg hf]
        exact ⟨fun h => by simp at h, fun _ => Or.inr ⟨u, body, rfl, rfl, rfl⟩⟩

/-- C4 witness: a failing fetch leaves the store untouched. -/
theorem C4_failure_atomicity_witness :
    (downloadSitemap ⟨("20240101".data), fun _ => Except.error ("HTTP 404: Not Found".data)⟩
      ("https://a.com/sitemap.xml".data) false kvEmpty).2 = kvEmpty :=
  ((C4_failure_atomicity ⟨("20240101".data), fun _ => Except.error ("HTTP 404: Not Found".data)⟩
    ("https://a.com/sitemap.xml".data) false kvEmpty).1 (by decide)).2.2

/-! ## Registry lemmas and claims -/

theorem downloadSitemap_fail_state (env : Env) (url : Str) (force : Bool) (st : KV)
    (h : (downloadSitemap env url force st).1.success = false) :
    (downloadSitemap env url force st).2 = st := by
  cases hu : parseURL url with
  | none => rw [downloadSitemap_parse_fail env url force st hu]
  | some u =>
    cases hg : (!force && (st (lastUpdateKey u.hostname) == some env.today)) with
    | true => rw [downloadSitemap_throttle env url u force st hu hg]
    | false =>
      cases hf : env.fetchBody url with
      | error e => rw [downloadSitemap_fetch_fail env url u force st e hu hg hf]
      | ok body =>
        rw [downloadSitemap_fetch_ok env url u force st body hu hg hf] at h
        simp at h

theorem contains_eq_false_of_not_mem {α : Type} [BEq α] [LawfulBEq α] {l : List α} {a : α}
    (h : a ∉ l) : l.contains a = false := by
  rw [← Bool.not_eq_true]
  intro hc
  exact h ((contains_eq_true_iff l a).mp hc)

/-- C6.  Registry mutation safety: removing a URL absent from the registry
returns the not-found failure and leaves the whole store (hence the
persisted list) unchanged — `removeFeed` takes no fetch oracle at all, so no
fetch can occur; adding a new URL whose initial download attempt fails
returns that failure result unchanged and leaves the store (hence the
registry) unchanged. -/
theorem C6_registry_mutation :
    (∀ (st : KV) (url : Str) (feeds : List Str), getFeeds st = JsVal.list feeds →
      url ∉ feeds →
      removeFeed url st = (⟨false, ("该RSS订阅不存在".data)⟩, st)) ∧
    (∀ (env : Env) (st : KV) (url : Str) (feeds : List Str),
      getFeeds st = JsVal.list feeds → url ∉ feeds →
      (downloadSitemap env url false st).1.success = false →
      addFeed env url st = ((downloadSitemap env url false st).1, st)) := by
  constructor
  · intro st url feeds hf hnm
    simp [removeFeed, hf, hnm]
  · intro env st url feeds hf hnm hfail
    have hst := downloadSitemap_fail_state env url false st hfail
    simp [addFeed, hf, hnm, hfail, Prod.ext_iff, hst]

/-- C6 witness: both registry-mutation properties at a concrete store. -/
theorem C6_registry_mutation_witness :
    removeFeed ("https://a.com/sitemap.xml".data) kvEmpty =
      (⟨false, ("该RSS订阅不存在".data)⟩, kvEmpty) ∧
    addFeed ⟨("20240101".data), fun _ => Except.error ("HTTP 500: err".data)⟩
        ("https://a.com/sitemap.xml".data) kvEmpty =
      ((downloadSitemap ⟨("20240101".data), fun _ => Except.error ("HTTP 500: err".data)⟩
          ("https://a.com/sitemap.xml".data) false kvEmpty).1, kvEmpty) :=
  ⟨C6_registry_mutation.1 kvEmpty ("https://a.com/sitemap.xml".data) [] (by decide) (by decide),
   C6_registry_mutation.2 ⟨("20240101".data), fun _ => Except.error ("HTTP 500: err".data)⟩
     kvEmpty ("https://a.com/sitemap.xml".data) [] (by decide) (by decide) (by decide)⟩

/-- C8 state for the counterexample: registry absent, marker already equals
today, truthy `current` and `latest` snapshots. -/
def C8StateW : KV :=
  kvPut (lastUpdateKey ("a.com".data)) ("20240101".data)
    (kvPut (currentKey ("a.com".data)) ("<loc>https://a/1</loc>".data)
      (kvPut (latestKey ("a.com".data)) ("<loc>https://a/1</loc>".data) kvEmpty))

/-- C8 counterexample.  A successful `addFeed` of a *new* URL whose
underlying attempt took the same-day throttle branch keeps the underlying
nonempty message instead of replacing it with the added message (the
replacement only happens when the underlying message is empty). -/
theorem C8_add_message_counterexample :
    getFeeds C8StateW = JsVal.list [] ∧
    (addFeed ⟨("20240101".data), fun _ => Except.error []⟩
        ("https://a.com/sitemap.xml".data) C8StateW).1.success = true ∧
    (addFeed ⟨("20240101".data), fun _ => Except.error []⟩
        ("https://a.com/sitemap.xml".data) C8StateW).1.errorMsg ≠ ("成功添加".data) := by
  refine ⟨by decide, by decide, by decide⟩

/-- C8 (amended).  For a successful add: when the URL was already
registered, the message is always replaced by the already-existed message;
when the URL was new, the added message replaces the underlying message
*only if that message is empty* (a real fetch happened) — otherwise the
underlying message (e.g. the throttle notice) is kept. -/
theorem C8_add_outcome_message (env : Env) (url : Str) (st : KV) (feeds : List Str)
    (hf : getFeeds st = JsVal.list feeds)
    (hs : (downloadSitemap env url false st).1.success = true) :
    (url ∉ feeds → (addFeed env url st).1 =
      { (downloadSitemap env url false st).1 with
        errorMsg := if (downloadSitemap env url false st).1.errorMsg.isEmpty
          then ("成功添加".data) else (downloadSitemap env url false st).1.errorMsg }) ∧
    (url ∈ feeds → (addFeed env url st).1 =
      { (downloadSitemap env url false st).1 with
        errorMsg := ("已存在的feed更新成功".data) }) := by
  constructor
  · intro hnm
    simp [addFeed, hf, hnm, hs]
  · intro hm
    simp [addFeed, hf, hm, hs]

/-- C8 witness: a fresh add with a successful fetch gets the added
message. -/
theorem C8_add_outcome_message_witness :
    (addFeed ⟨("20240101".data), fun _ => Except.ok ("<loc>https://a/1</loc>".data)⟩
        ("https://a.com/sitemap.xml".data) kvEmpty).1 =
      { (downloadSitemap ⟨("20240101".data), fun _ => Except.ok ("<loc>https://a/1</loc>".data)⟩
          ("https://a.com/sitemap.xml".data) false kvEmpty).1 with
        errorMsg := if (downloadSitemap ⟨("20240101".data),
            fun _ => Except.ok ("<loc>https://a/1</loc>".data)⟩
            ("https://a.com/sitemap.xml".data) false kvEmpty).1.errorMsg.isEmpty
          then ("成功添加".data)
          else (downloadSitemap ⟨("20240101".data),
            fun _ => Except.ok ("<loc>https://a/1</loc>".data)⟩
            ("https://a.com/sitemap.xml".data) false kvEmpty).1.errorMsg } :=
  (C8_add_outcome_message ⟨("20240101".data), fun _ => Except.ok ("<loc>https://a/1</loc>".data)⟩
    ("https://a.com/sitemap.xml".data) kvEmpty [] (by decide) (by decide)).1 (by decide)

/-- C9 counterexample.  A stored registry value that is valid JSON but not
an array — the number literal 5 — is returned as the parsed non-list value,
not as the empty list, refuting the claim that every stored string not
representing the registry list yields the empty list. -/
theorem C9_registry_read_counterexample :
    getFeeds (kvPut feedsKey ("5".data) kvEmpty) = JsVal.nonList ∧
    JsVal.nonList ≠ JsVal.list [] := by
  refine ⟨by decide, by decide⟩

/-- C9 (amended).  Registry read totality: `getFeeds` never fails; it
returns the empty list when the stored value is absent, empty, or fails to
parse as JSON, and otherwise returns the parsed value as-is — which is the
registry list when the value is a JSON string array, but is a non-list
value (not the empty list) when the stored string is valid non-array
JSON. -/
theorem C9_registry_read (st : KV) (s : Str) :
    (st feedsKey = none → getFeeds st = JsVal.list []) ∧
    (st feedsKey = some s → jsonParse s = none → getFeeds st = JsVal.list []) ∧
    (st feedsKey = some s → s.isEmpty = true → getFeeds st = JsVal.list []) ∧
    (st feedsKey = some s → s.isEmpty = false → ∀ v, jsonParse s = some v →
      getFeeds st = v) := by
  refine ⟨?_, ?_, ?_, ?_⟩
  · intro h; simp [getFeeds, h]
  · intro h hp
    by_cases he : s.isEmpty
    · simp [getFeeds, h, he]
    · simp [getFeeds, h, he, hp]
  · intro h he; simp [getFeeds, h, he]
  · intro h he v hp; simp [getFeeds, h, he, hp]

/-- C9 witness: the absent-key case at the empty store. -/
theorem C9_registry_read_witness : getFeeds kvEmpty = JsVal.list [] :=
  (C9_registry_read kvEmpty []).1 rfl

/-! ## Lemmas for the keyword statistics -/

theorem mem_insertByCountDesc (x y : KeywordStat) (l : List KeywordStat) :
    y ∈ insertByCountDesc x l ↔ y = x ∨ y ∈ l := by
  induction l with
  | nil => simp [insertByCountDesc]
  | cons z t ih =>
    by_cases h : x.count ≤ z.count
    · simp only [insertByCountDesc, h, ite_true, List.mem_cons, ih]
      tauto
    · simp only [insertByCountDesc, h, ite_false, List.mem_cons]

theorem sorted_insertByCountDesc (x : KeywordStat) (l : List KeywordStat)
    (h : l.Pairwise (fun a b => b.count ≤ a.count)) :
    (insertByCountDesc x l).Pairwise (fun a b => b.count ≤ a.count) := by
  induction l with
  | nil => simp [insertByCountDesc]
  | cons z t ih =>
    rcases List.pairwise_cons.mp h with ⟨hz, ht⟩
    by_cases hle : x.count ≤ z.count
    · simp only [insertByCountDesc, if_pos hle]
      refine List.pairwise_cons.mpr ⟨?_, ih ht⟩
      intro y hy
      rcases (mem_insertByCountDesc x y t).mp hy with rfl | hyt
      · exact hle
      · exact hz y hyt
    · simp only [insertByCountDesc, if_neg hle]
      refine List.pairwise_cons.mpr ⟨?_, h⟩
      intro y hy
      rcases List.mem_cons.mp hy with rfl | hyt
      · omega
      · have := hz y hyt; omega

theorem sorted_foldl_insert (l acc : List KeywordStat)
    (h : acc.Pairwise (fun a b => b.count ≤ a.count)) :
    (l.foldl (fun acc x => insertByCountDesc x acc) acc).Pairwise
      (fun a b => b.count ≤ a.count) := by
  induction l generalizing acc with
  | nil => exact h
  | cons x t ih => exact ih _ (sorted_insertByCountDesc x acc h)

theorem mem_foldl_insert (l acc : List KeywordStat) (y : KeywordStat)
    (h : y ∈ l.foldl (fun acc x => insertByCountDesc x acc) acc) :
    y ∈ acc ∨ y ∈ l := by
  induction l generalizing acc with
  | nil => exact Or.inl h
  | cons x t ih =>
    rcases ih _ h with hin | hin
    · rcases (mem_insertByCountDesc x y acc).mp hin with rfl | hacc
      · exact Or.inr (List.mem_cons_self _ _)
      · exact Or.inl hacc
    · exact Or.inr (List.mem_cons_of_mem _ hin)

/-- Every key of the running count map is a cleaned kept segment. -/
def GoodMap (m : List (Str × Nat)) : Prop :=
  ∀ e ∈ m, ∃ seg, keepSegment seg = true ∧ e.1 = cleanSegment seg ∧
    2 < (cleanSegment seg).length

theorem mem_mapSet (m : List (Str × Nat)) (k : Str) (v : Nat) (e : Str × Nat)
    (h : e ∈ mapSet m k v) : e = (k, v) ∨ e ∈ m := by
  induction m with
  | nil => simpa [mapSet] using h
  | cons p t ih =>
    obtain ⟨k', v'⟩ := p
    by_cases hk : k' = k
    · simp only [mapSet, if_pos hk] at h
      rcases List.mem_cons.mp h with rfl | hin
      · exact Or.inl rfl
      · exact Or.inr (List.mem_cons_of_mem _ hin)
    · simp only [mapSet, if_neg hk] at h
      rcases List.mem_cons.mp h with rfl | hin
      · exact Or.inr (List.mem_cons_self _ _)
      · rcases ih hin with h' | h'
        · exact Or.inl h'
        · exact Or.inr (List.mem_cons_of_mem _ h')

theorem goodMap_foldSeg (m : List (Str × Nat)) (seg : Str) (h : GoodMap m) :
    GoodMap (keywordFoldSeg m seg) := by
  unfold keywordFoldSeg
  by_cases hk : keepSegment seg
  · rw [if_pos hk]
    by_cases hl : (cleanSegment seg).length > 2
    · rw [if_pos hl]
      intro e he
      rcases mem_mapSet _ _ _ _ he with rfl | hin
      · exact ⟨seg, hk, rfl, hl⟩
      · exact h e hin
    · rw [if_neg hl]; exact h
  · rw [if_neg hk]; exact h

theorem goodMap_foldl_segs (segs : List Str) (m : List (Str × Nat)) (h : GoodMap m) :
    GoodMap (segs.foldl keywordFoldSeg m) := by
  induction segs generalizing m with
  | nil => exact h
  | cons s t ih => exact ih _ (goodMap_foldSeg m s h)

theorem goodMap_foldUrl (m : List (Str × Nat)) (url : Str) (h : GoodMap m) :
    GoodMap (keywordFoldUrl m url) := by
  unfold keywordFoldUrl
  cases parseURL url with
  | none => exact h
  | some p => exact goodMap_foldl_segs _ m h

theorem goodMap_foldl_urls (urls : List Str) (m : List (Str × Nat)) (h : GoodMap m) :
    GoodMap (urls.foldl keywordFoldUrl m) := by
  induction urls generalizing m with
  | nil => exact h
  | cons u t ih => exact ih _ (goodMap_foldUrl m u h)

theorem keywordFoldUrl_none (m : List (Str × Nat)) (url : Str)
    (h : parseURL url = none) : keywordFoldUrl m url = m := by
  simp [keywordFoldUrl, h]

/-- C7.  Keyword statistics: the result has at most 10 entries, is ordered
by descending count, every reported keyword is the hyphen-stripped
lower-cased form of a kept path segment (longer than 2 characters, not
purely numeric, free of dots, not a stopword) whose cleaned form is still
longer than 2 characters, URLs that fail to parse are silently skipped, and
on the two concrete tech-news URLs the keyword technews is counted exactly
twice while the purely numeric segment 2024 never appears. -/
theorem C7_keyword_statistics :
    (∀ urls, (extractKeywordsWithCount urls).length ≤ 10) ∧
    (∀ urls, (extractKeywordsWithCount urls).Pairwise (fun a b => b.count ≤ a.count)) ∧
    (∀ urls e, e ∈ extractKeywordsWithCount urls →
      ∃ seg, keepSegment seg = true ∧ e.keyword = cleanSegment seg ∧
        2 < (cleanSegment seg).length) ∧
    (∀ pre post url, parseURL url = none →
      extractKeywordsWithCount (pre ++ url :: post) = extractKeywordsWithCount (pre ++ post)) ∧
    extractKeywordsWithCount
        [("https://a.com/tech-news/2024/".data), ("https://a.com/tech-news/ai/".data)]
      = [⟨("technews".data), 2⟩] := by
  refine ⟨?_, ?_, ?_, ?_, by decide⟩
  · intro urls
    exact List.length_take_le 10 _
  · intro urls
    exact (sorted_foldl_insert _ [] (List.Pairwise.nil)).sublist (List.take_sublist 10 _)
  · intro urls e he
    have h1 : e ∈ jsSortByCountDesc
        ((urls.foldl keywordFoldUrl []).map (fun p => (⟨p.1, p.2⟩ : KeywordStat))) :=
      (List.take_sublist 10 _).mem he
    have h2 := mem_foldl_insert _ [] e h1
    rcases h2 with h2 | h2
    · simp at h2
    · obtain ⟨p, hp, hpe⟩ := List.mem_map.mp h2
      obtain ⟨seg, hk, hks, hl⟩ := goodMap_foldl_urls urls [] (by intro e he; simp at he) p hp
      exact ⟨seg, hk, by rw [← hpe]; exact hks, hl⟩
  · intro pre post url h
    have hfold : ((pre ++ url :: post).foldl keywordFoldUrl []) =
        ((pre ++ post).foldl keywordFoldUrl []) := by
      rw [List.foldl_append, List.foldl_append, List.foldl_cons,
        keywordFoldUrl_none _ _ h]
    unfold extractKeywordsWithCount
    rw [hfold]

/-- C7 witness: the skip-unparseable property at a concrete list. -/
theorem C7_keyword_statistics_witness :
    extractKeywordsWithCount [("notaurl".data)] = extractKeywordsWithCount [] :=
  C7_keyword_statistics.2.2.2.1 [] [] ("notaurl".data) (by decide)

theorem sanityCheck7 : extractURLs ("<loc> https://a.com/x </loc><LOC>ftp://b</LOC>".data)
    = [("https://a.com/x".data)] := by decide

theorem sanityCheck8 : extractURLs ("<urlset><loc attr=1>https://a.com/y</LoC>junk".data)
    = [("https://a.com/y".data)] := by decide

theorem sanityCheck9 : extractURLs ("<loc>https://a.com/x\nmore</loc>".data) = [] := by decide

theorem sanityCheck10 :
    compareSitemaps ("<loc>https://a/1</loc><loc>https://a/2</loc>".data)
      ("<loc>https://a/1</loc>".data) = [("https://a/2".data)] := by decide

theorem sanityCheck11 : parseURL ("https://a.com/tech-news/2024/?x=1".data)
    = some ⟨("a.com".data), ("/tech-news/2024/".data)⟩ := by decide

theorem sanityCheck12 : parseURL ("HTTP://A.com:8080".data)
    = some ⟨("a.com".data), ("/".data)⟩ := by decide

theorem sanityCheck13 : parseURL ("notaurl".data) = none := by decide
